import Mathlib

/-!
Verification of the analyst-tools financial query engine (`analyst-tools.py`).

The Python source is shallowly embedded: the pandas data frame becomes a list
of rows plus a flag recording whether the optional `OPEX` column is present,
monetary amounts become rationals, Python exceptions become an `Except` error
type, and the external fuzzy scorer (`thefuzz`) is abstracted as a pluggable
`String → String → ℕ` similarity function, exactly as §9 of the design
document prescribes.
-/

namespace AnalystTools

/-- One row of `dataset.csv`: the required columns `CustomerName`,
`ProjectName`, `Revenue`, `COGS`, and the value of the optional `OPEX` column
(meaningful only when the ledger records that the column is present). -/
structure Row where
  customerName : String
  projectName : String
  revenue : ℚ
  cogs : ℚ
  opex : ℚ
deriving DecidableEq, Repr

/-- The loaded data frame: its rows plus whether the optional `OPEX` column
exists (`df['OPEX']` raises a `KeyError` when it does not). -/
structure Ledger where
  rows : List Row
  hasOPEX : Bool
deriving DecidableEq, Repr

/-- The errors raised by the tools (`ValueError` / `KeyError` / `TypeError`
in the Python source).  `noMatch kind query best` is the
"No close match found for {kind} '{query}'. Did you mean '{best}'?" error;
`unknownMetric m avail` is the "Unknown metric: {m}. Available metrics are
{avail}" error. -/
inductive Err where
  | noMatch (kind query best : String)
  | unknownMetric (metric : String) (available : List String)
  | invalidEntityType
  | keyError (key : String)
  | typeError
deriving DecidableEq, Repr

deriving instance DecidableEq for Except

/-- The scan of `pandas.Series.unique`: values not seen yet, in order of
first appearance. -/
def uniqueAux (seen : List String) : List String → List String
  | [] => []
  | x :: xs => if x ∈ seen then uniqueAux seen xs else x :: uniqueAux (seen ++ [x]) xs

/-- `pandas.Series.unique`: the distinct values, in order of first
appearance. -/
def uniqueList (l : List String) : List String := uniqueAux [] l

/-- The scan inside `thefuzz.process.extractOne`: the running best candidate,
replaced only on a strictly greater score (first-encountered wins ties). -/
def extractBest (score : String → String → ℕ) (query : String) :
    String × ℕ → List String → String × ℕ
  | cur, [] => cur
  | cur, c :: cs =>
    extractBest score query (if cur.2 < score query c then (c, score query c) else cur) cs

/-- `thefuzz.process.extractOne`, abstracted over the similarity scorer:
the best-scoring candidate together with its score, `none` on an empty
candidate list (Python returns `None` there). -/
def extractOne (score : String → String → ℕ) (query : String) :
    List String → Option (String × ℕ)
  | [] => none
  | c :: cs => some (extractBest score query (c, score query c) cs)

/-- The entity-resolution step repeated at lines 25–31, 34–41, 270–278 and
292–300 of the source: fuzzy-match `query` against `names`, accept when the
best score is strictly above 80, otherwise raise the "No close match …
Did you mean …?" `ValueError` carrying the best (rejected) candidate.
Subscripting the `None` returned on an empty candidate list is a
`TypeError`. -/
def resolveName (score : String → String → ℕ) (kind query : String)
    (names : List String) : Except Err String :=
  match extractOne score query names with
  | none => .error .typeError
  | some (best, s) => if 80 < s then .ok best else .error (.noMatch kind query best)

/-- Python's `str.lower()`: per-character ASCII lowercasing. -/
def pyLower (s : String) : String := ⟨s.data.map Char.toLower⟩

/-- Python truthiness of an `Optional[str]` argument: `None` and `""` are
falsy. -/
def truthy : Option String → Bool
  | none => false
  | some s => !(s == "")

/-- Row-wise float division of the filtered percentage path: `none` models
the non-finite (`inf` / `nan`) value pandas produces on division by zero. -/
def divP (a b : ℚ) : Option ℚ := if b = 0 then none else some (a / b)

/-- The closed metric enumeration (`valid_metrics` at line 119). -/
def validMetrics : List String := ["revenue", "gross_margin", "ebitda"]

/-- Lines 47–71 of `get_data`: the unfiltered aggregate branch.  Sums are
taken first, the metric is then evaluated once on the totals, with the
percentage substituted by `0` whenever total revenue is not strictly
positive.  The `ebitda` branch reads `df['OPEX']`, a `KeyError` when the
column is absent. -/
def getDataOverall (metric : String) (rows : List Row) (hasOPEX : Bool) :
    Except Err (List ℚ × List (Option ℚ)) :=
  let totalRevenue := (rows.map Row.revenue).sum
  let totalCogs := (rows.map Row.cogs).sum
  if metric == "gross_margin" then
    let v := totalRevenue - totalCogs
    .ok ([v], [some (if 0 < totalRevenue then v / totalRevenue else 0)])
  else if metric == "revenue" then
    .ok ([totalRevenue], [some 1])
  else if metric == "ebitda" then
    if hasOPEX then
      let v := totalRevenue - totalCogs - (rows.map Row.opex).sum
      .ok ([v], [some (if 0 < totalRevenue then v / totalRevenue else 0)])
    else .error (.keyError "OPEX")
  else .error (.unknownMetric metric validMetrics)

/-- Lines 74–89 of `get_data`: the filtered per-row branch.  The metric is
evaluated per row and the percentage is the raw row-wise division by the
row's revenue, with no zero guard.  The `ebitda` branch reads `df['OPEX']`. -/
def getDataFiltered (metric : String) (rows : List Row) (hasOPEX : Bool) :
    Except Err (List ℚ × List (Option ℚ)) :=
  if metric == "gross_margin" then
    .ok (rows.map (fun r => r.revenue - r.cogs),
         rows.map (fun r => divP (r.revenue - r.cogs) r.revenue))
  else if metric == "revenue" then
    .ok (rows.map Row.revenue, rows.map (fun _ => some 1))
  else if metric == "ebitda" then
    if hasOPEX then
      .ok (rows.map (fun r => r.revenue - r.cogs - r.opex),
           rows.map (fun r => divP (r.revenue - r.cogs - r.opex) r.revenue))
    else .error (.keyError "OPEX")
  else .error (.unknownMetric metric validMetrics)

/-- Lines 43–89 of `get_data`: metric dispatch after filtering.  `customer1`
and `project1` are the (possibly reassigned to canonical) filter arguments as
they stand at line 47; the branch choice re-tests their truthiness. -/
def getDataCompute (metric : String) (customer1 project1 : Option String)
    (rows : List Row) (hasOPEX : Bool) : Except Err (List ℚ × List (Option ℚ)) :=
  if !truthy customer1 && !truthy project1 then
    getDataOverall (pyLower metric) rows hasOPEX
  else
    getDataFiltered (pyLower metric) rows hasOPEX

/-- Lines 33–41 of `get_data`: the project filter, applied to the rows left
by the customer filter; the candidate names come from the already narrowed
frame. -/
def getDataProject (score : String → String → ℕ) (metric : String)
    (customer1 project : Option String) (rows : List Row) (hasOPEX : Bool) :
    Except Err (List ℚ × List (Option ℚ)) :=
  if truthy project then
    match resolveName score "project" (project.getD "") (uniqueList (rows.map Row.projectName)) with
    | .error e => .error e
    | .ok p => getDataCompute metric customer1 (some p)
        (rows.filter (fun r => r.projectName == p)) hasOPEX
  else getDataCompute metric customer1 project rows hasOPEX

/-- `get_data` (lines 12–89), parametrised by the external similarity
scorer.  The customer filter is resolved and applied first, the project
filter second, then the metric is computed. -/
def getData (score : String → String → ℕ) (metric : String)
    (customer project : Option String) (l : Ledger) :
    Except Err (List ℚ × List (Option ℚ)) :=
  if truthy customer then
    match resolveName score "customer" (customer.getD "")
        (uniqueList (l.rows.map Row.customerName)) with
    | .error e => .error e
    | .ok c => getDataProject score metric (some c) project
        (l.rows.filter (fun r => r.customerName == c)) l.hasOPEX
  else getDataProject score metric customer project l.rows l.hasOPEX

/-- `sorted(...)` over strings. -/
def sortStrings (l : List String) : List String :=
  List.insertionSort (fun a b => a ≤ b) l

/-- `list_customer_projects` (lines 259–278). -/
def listCustomerProjects (score : String → String → ℕ) (customerName : String)
    (l : Ledger) : Except Err (List String) :=
  match resolveName score "customer" customerName
      (uniqueList (l.rows.map Row.customerName)) with
  | .error e => .error e
  | .ok c => .ok (sortStrings (uniqueList
      ((l.rows.filter (fun r => r.customerName == c)).map Row.projectName)))

/-- `list_project_customers` (lines 281–300). -/
def listProjectCustomers (score : String → String → ℕ) (projectName : String)
    (l : Ledger) : Except Err (List String) :=
  match resolveName score "project" projectName
      (uniqueList (l.rows.map Row.projectName)) with
  | .error e => .error e
  | .ok p => .ok (sortStrings (uniqueList
      ((l.rows.filter (fun r => r.projectName == p)).map Row.customerName)))

/-- One `{value, percentage}` cell of the `compare_performance` output. -/
structure MetricCell where
  value : ℚ
  percentage : ℚ
deriving DecidableEq, Repr

/-- Lines 140–153 and 177–190: all three metrics evaluated on pre-summed
totals, with the zero-guarded percentage policy (`0` when total revenue is
not strictly positive, `1.0` for `revenue` itself). -/
def entityMetrics (tr tc tx : ℚ) : List (String × MetricCell) :=
  [("revenue", ⟨tr, 1⟩),
   ("gross_margin", ⟨tr - tc, if 0 < tr then (tr - tc) / tr else 0⟩),
   ("ebitda", ⟨tr - tc - tx, if 0 < tr then (tr - tc - tx) / tr else 0⟩)]

/-- The Python dict comprehension `{m: em[m] for m in ms}` (lines 158 and
194): the subscripts are evaluated in list order and the first missing key
raises a `KeyError`. -/
def projectMetrics (em : List (String × MetricCell)) :
    List String → Except Err (List (String × MetricCell))
  | [] => .ok []
  | m :: ms =>
    match em.lookup m with
    | none => .error (.keyError m)
    | some c =>
      match projectMetrics em ms with
      | .error e => .error e
      | .ok rest => .ok ((m, c) :: rest)

/-- Lines 120–122 of `compare_performance`: the fail-fast metric validation
loop; membership is tested on the lowercased name but the error carries the
original one. -/
def validateMetrics : List String → Except Err Unit
  | [] => .ok ()
  | m :: ms =>
    if pyLower m ∈ validMetrics then validateMetrics ms
    else .error (.unknownMetric m validMetrics)

/-- Line 125: the grouping column selected by `entity_type`. -/
def keyFnOf (entityType : String) : Row → String :=
  if pyLower entityType == "customer" then Row.customerName else Row.projectName

/-- The rows of one `df.groupby(entity_col)` group. -/
def groupRows (l : Ledger) (f : Row → String) (k : String) : List Row :=
  l.rows.filter (fun r => f r == k)

/-- The iteration order of `df.groupby(entity_col)`: the distinct keys in
ascending sorted order (the pandas default). -/
def groupKeys (l : Ledger) (f : Row → String) : List String :=
  sortStrings (uniqueList (l.rows.map f))

/-- Line 135: the group's summed revenue. -/
def groupRevenue (l : Ledger) (f : Row → String) (k : String) : ℚ :=
  ((groupRows l f k).map Row.revenue).sum

/-- Line 136: the group's summed COGS. -/
def groupCogs (l : Ledger) (f : Row → String) (k : String) : ℚ :=
  ((groupRows l f k).map Row.cogs).sum

/-- Line 137: the group's summed OPEX, `0` when the column is absent. -/
def groupOpex (l : Ledger) (f : Row → String) (k : String) : ℚ :=
  if l.hasOPEX then ((groupRows l f k).map Row.opex).sum else 0

/-- Sequencing a fallible map over a list, stopping at the first raised
error (the semantics of a Python `for` loop that may raise). -/
def exceptMap (f : α → Except Err β) : List α → Except Err (List β)
  | [] => .ok []
  | a :: l =>
    match f a with
    | .error e => .error e
    | .ok b =>
      match exceptMap f l with
      | .error e => .error e
      | .ok bs => .ok (b :: bs)

/-- Lines 132–159: one summary per group, in group-iteration order, holding
the group name, its total revenue (the later sort key) and its metric cells
already projected to the requested metrics (a projection that can raise
`KeyError`). -/
def entitySummaries (l : Ledger) (f : Row → String) (ms : List String) :
    Except Err (List (String × ℚ × List (String × MetricCell))) :=
  exceptMap (fun k =>
      match projectMetrics (entityMetrics (groupRevenue l f k) (groupCogs l f k) (groupOpex l f k)) ms with
      | .error e => .error e
      | .ok pm => .ok (k, groupRevenue l f k, pm))
    (groupKeys l f)

/-- `results[key] = value` on a Python dict modelled as an ordered
association list: an existing key is updated in place, a new key is
appended. -/
def dictInsert (d : List (String × α)) (k : String) (v : α) : List (String × α) :=
  if d.any (fun p => p.1 == k) then d.map (fun p => if p.1 == k then (k, v) else p)
  else d ++ [(k, v)]

/-- Lines 161–166 of `compare_performance`: Python's stable
`list.sort(key=..., reverse=True)` on the summaries, followed by the
truncation applied only when `top_n` is a positive integer. -/
def truncateSummaries (topN : Option Int)
    (summaries : List (String × ℚ × List (String × MetricCell))) :
    List (String × ℚ × List (String × MetricCell)) :=
  match topN with
  | some n =>
    if 0 < n then (List.insertionSort (fun a b => b.2.1 ≤ a.2.1) summaries).take n.toNat
    else List.insertionSort (fun a b => b.2.1 ≤ a.2.1) summaries
  | none => List.insertionSort (fun a b => b.2.1 ≤ a.2.1) summaries

/-- Lines 161–196 of `compare_performance`: sort, truncate, build the
results dict, add the `OVERALL` entry computed over the full unfiltered
ledger, and run the final projection loop. -/
def compareFinish (ms : List String) (l : Ledger)
    (summaries : List (String × ℚ × List (String × MetricCell))) (topN : Option Int) :
    Except Err (List (String × List (String × MetricCell))) :=
  exceptMap (fun p =>
      match projectMetrics p.2 ms with
      | .error e => .error e
      | .ok pm => .ok (p.1, pm))
    (dictInsert
      ((truncateSummaries topN summaries).foldl (fun acc s => dictInsert acc s.1 s.2.2) [])
      "OVERALL"
      (entityMetrics ((l.rows.map Row.revenue).sum) ((l.rows.map Row.cogs).sum)
        (if l.hasOPEX then (l.rows.map Row.opex).sum else 0)))

/-- Lines 124–196 of `compare_performance`: everything after validation. -/
def compareCore (f : Row → String) (ms : List String) (topN : Option Int) (l : Ledger) :
    Except Err (List (String × List (String × MetricCell))) :=
  match entitySummaries l f ms with
  | .error e => .error e
  | .ok summaries => compareFinish ms l summaries topN

/-- `compare_performance` (lines 92–196): validate the entity type and the
metric names fail-fast, then group by the chosen dimension, summarise every
group, sort by total revenue descending (Python's stable sort), truncate to
a positive `top_n`, append the `OVERALL` entry computed on the full ledger,
and project every entry down to the requested metrics. -/
def comparePerformance (entityType : String) (metricsOpt : Option (List String))
    (topN : Option Int) (l : Ledger) :
    Except Err (List (String × List (String × MetricCell))) :=
  if !(pyLower entityType == "customer" || pyLower entityType == "project") then
    .error .invalidEntityType
  else
    let ms := metricsOpt.getD ["revenue", "gross_margin", "ebitda"]
    match validateMetrics ms with
    | .error e => .error e
    | .ok _ => compareCore (keyFnOf entityType) ms topN l

/-- Fuel-indexed Levenshtein edit distance between two character lists; the
fuel only serves to make the recursion structural, `lev` below always
supplies enough of it. -/
def levF : ℕ → List Char → List Char → ℕ
  | _, [], ys => ys.length
  | _, x :: xs, [] => (x :: xs).length
  | 0, _, _ => 0
  | fuel + 1, x :: xs, y :: ys =>
    if x = y then levF fuel xs ys
    else 1 + min (levF fuel xs (y :: ys)) (min (levF fuel (x :: xs) ys) (levF fuel xs ys))

/-- Levenshtein edit distance between two character lists. -/
def lev (xs ys : List Char) : ℕ := levF (xs.length + ys.length) xs ys

/-- Modelled from the spec: the fuzzy scorer itself lives in the external
`thefuzz` dependency, which §9 of the design document abstracts as a
pluggable "normalized edit-distance-based similarity measure (0–100 scale)";
this definition realizes that description as
`100 * (maxlen - levenshtein) / maxlen`. -/
def specSimilarity (a b : String) : ℕ :=
  let m := max a.data.length b.data.length
  if m = 0 then 100 else ((m - lev a.data b.data) * 100) / m

/-- The same ledger with an explicit all-zero `OPEX` column. -/
def withZeroOpex (l : Ledger) : Ledger :=
  ⟨l.rows.map (fun r => { r with opex := 0 }), true⟩

/-! ### Shared lemmas -/

theorem getDataCompute_truthy_congr (m : String) (c1 c1' p1 p1' : Option String)
    (rows : List Row) (h : Bool) (hc : truthy c1 = truthy c1') (hp : truthy p1 = truthy p1') :
    getDataCompute m c1 p1 rows h = getDataCompute m c1' p1' rows h := by
  unfold getDataCompute
  rw [hc, hp]

theorem getDataProject_customer_congr (s : String → String → ℕ) (m : String)
    (c1 c1' p : Option String) (rows : List Row) (h : Bool)
    (hc : truthy c1 = truthy c1') :
    getDataProject s m c1 p rows h = getDataProject s m c1' p rows h := by
  unfold getDataProject
  cases hp : truthy p with
  | false =>
    simp only [hp, Bool.false_eq_true, if_false]
    exact getDataCompute_truthy_congr _ _ _ _ _ _ _ hc rfl
  | true =>
    simp only [hp, if_true]
    cases resolveName s "project" (p.getD "") (uniqueList (rows.map Row.projectName)) with
    | error e => rfl
    | ok pr => exact getDataCompute_truthy_congr _ _ _ _ _ _ _ hc rfl

theorem getDataProject_empty_project (s : String → String → ℕ) (m : String)
    (c1 : Option String) (rows : List Row) (h : Bool) :
    getDataProject s m c1 (some "") rows h = getDataProject s m c1 none rows h := by
  unfold getDataProject
  have h1 : truthy (some "") = false := rfl
  have h2 : truthy none = false := rfl
  rw [h1, h2]
  simp only [Bool.false_eq_true, if_false]
  exact getDataCompute_truthy_congr _ _ _ _ _ _ _ rfl rfl

theorem sum_map_sub (f g : Row → ℚ) (l : List Row) :
    (l.map (fun r => f r - g r)).sum = (l.map f).sum - (l.map g).sum := by
  induction l with
  | nil => simp
  | cons a t ih =>
    simp only [List.map_cons, List.sum_cons, ih]
    ring

/-! ### C10 -/

/-- C10: an empty-string `customer` and/or `project` argument is treated
exactly as an absent one — no fuzzy resolution is attempted for it, no
`NoConfidentMatch` error can arise from it, and
`get_data(metric, customer="", project="")` returns the unfiltered
whole-ledger aggregate. -/
theorem c10_empty_string_is_absent (score : String → String → ℕ) (metric : String)
    (l : Ledger) :
    (∀ p, getData score metric (some "") p l = getData score metric none p l) ∧
    (∀ c, getData score metric c (some "") l = getData score metric c none l) ∧
    getData score metric (some "") (some "") l =
      getDataOverall (pyLower metric) l.rows l.hasOPEX := by
  have hempty : truthy (some "") = false := rfl
  have hnone : truthy none = false := rfl
  refine ⟨?_, ?_, ?_⟩
  · intro p
    unfold getData
    rw [hempty, hnone]
    simp only [Bool.false_eq_true, if_false]
    exact getDataProject_customer_congr _ _ _ _ _ _ _ rfl
  · intro c
    unfold getData
    cases hc : truthy c with
    | false =>
      simp only [Bool.false_eq_true, if_false]
      exact getDataProject_empty_project _ _ _ _ _
    | true =>
      simp only [if_true]
      cases resolveName score "customer" (c.getD "") (uniqueList (l.rows.map Row.customerName)) with
      | error e => rfl
      | ok c0 => exact getDataProject_empty_project _ _ _ _ _
  · show getData score metric (some "") (some "") l = _
    have h1 : getData score metric (some "") (some "") l = getData score metric none none l := by
      unfold getData
      rw [hempty, hnone]
      simp only [Bool.false_eq_true, if_false]
      exact getDataProject_empty_project _ _ _ _ _
    rw [h1]
    rfl

/-! ### C3 -/

/-- C3: in the filtered per-row mode the percentage is the raw row-wise
division of the row metric by the row's revenue, with no zero-revenue guard
(a zero-revenue row yields the undefined, non-finite value, modelled as
`none`), while the unfiltered aggregate mode substitutes `0` for the
percentage whenever total revenue is not strictly positive. -/
theorem c3_rowwise_division_unguarded (rows : List Row) (hasOPEX : Bool) :
    (getDataFiltered "gross_margin" rows hasOPEX =
      .ok (rows.map (fun r => r.revenue - r.cogs),
           rows.map (fun r =>
             if r.revenue = 0 then none else some ((r.revenue - r.cogs) / r.revenue)))) ∧
    (getDataFiltered "ebitda" rows true =
      .ok (rows.map (fun r => r.revenue - r.cogs - r.opex),
           rows.map (fun r =>
             if r.revenue = 0 then none
             else some ((r.revenue - r.cogs - r.opex) / r.revenue)))) ∧
    ((rows.map Row.revenue).sum ≤ 0 →
      getDataOverall "gross_margin" rows hasOPEX =
        .ok ([(rows.map Row.revenue).sum - (rows.map Row.cogs).sum], [some 0]) ∧
      getDataOverall "ebitda" rows true =
        .ok ([(rows.map Row.revenue).sum - (rows.map Row.cogs).sum -
                (rows.map Row.opex).sum], [some 0])) := by
  refine ⟨?_, ?_, fun h => ⟨?_, ?_⟩⟩
  · simp [getDataFiltered, divP]
  · simp [getDataFiltered, divP]
  · have hlt : ¬ (0 < (rows.map Row.revenue).sum) := not_lt.2 h
    simp [getDataOverall, hlt]
  · have hlt : ¬ (0 < (rows.map Row.revenue).sum) := not_lt.2 h
    simp [getDataOverall, hlt]

/-- Witness for C3 at a concrete one-row ledger whose revenue is zero. -/
theorem c3_rowwise_division_unguarded_witness :
    (([⟨"A", "P", 0, 2, 1⟩] : List Row).map Row.revenue).sum ≤ 0 ∧
    getDataOverall "gross_margin" [⟨"A", "P", 0, 2, 1⟩] false =
      .ok ([(([⟨"A", "P", 0, 2, 1⟩] : List Row).map Row.revenue).sum -
              (([⟨"A", "P", 0, 2, 1⟩] : List Row).map Row.cogs).sum], [some 0]) :=
  ⟨by simp, ((c3_rowwise_division_unguarded [⟨"A", "P", 0, 2, 1⟩] false).2.2 (by simp)).1⟩

/-! ### C5 -/

/-- C5: per-row metric values sum to the metric of the column sums for all
three metrics (aggregate consistency), and in particular the unfiltered
aggregate value of `get_data` equals the sum of the filtered per-row
values. -/
theorem c5_aggregate_consistency (rows : List Row) :
    ((rows.map (fun r => r.revenue - r.cogs)).sum =
      (rows.map Row.revenue).sum - (rows.map Row.cogs).sum) ∧
    ((rows.map (fun r => r.revenue - r.cogs - r.opex)).sum =
      (rows.map Row.revenue).sum - (rows.map Row.cogs).sum - (rows.map Row.opex).sum) ∧
    (∀ m ∈ validMetrics, ∃ v ps vs pps,
      getDataOverall m rows true = .ok ([v], ps) ∧
      getDataFiltered m rows true = .ok (vs, pps) ∧ v = vs.sum) := by
  have hgm : (rows.map (fun r => r.revenue - r.cogs)).sum =
      (rows.map Row.revenue).sum - (rows.map Row.cogs).sum :=
    sum_map_sub Row.revenue Row.cogs rows
  have heb : (rows.map (fun r => r.revenue - r.cogs - r.opex)).sum =
      (rows.map Row.revenue).sum - (rows.map Row.cogs).sum - (rows.map Row.opex).sum := by
    have := sum_map_sub (fun r => r.revenue - r.cogs) Row.opex rows
    simpa [hgm] using this
  refine ⟨hgm, heb, ?_⟩
  intro m hm
  have hm' : m = "revenue" ∨ m = "gross_margin" ∨ m = "ebitda" := by
    simpa [validMetrics] using hm
  rcases hm' with rfl | rfl | rfl
  · exact ⟨(rows.map Row.revenue).sum, [some 1], rows.map Row.revenue,
      rows.map (fun _ => some 1), by simp [getDataOverall], by simp [getDataFiltered], rfl⟩
  · refine ⟨(rows.map Row.revenue).sum - (rows.map Row.cogs).sum,
      [some (if 0 < (rows.map Row.revenue).sum then
        ((rows.map Row.revenue).sum - (rows.map Row.cogs).sum) / (rows.map Row.revenue).sum
        else 0)],
      rows.map (fun r => r.revenue - r.cogs),
      rows.map (fun r => divP (r.revenue - r.cogs) r.revenue), ?_, ?_, hgm.symm⟩
    · simp [getDataOverall]
    · simp [getDataFiltered]
  · refine ⟨(rows.map Row.revenue).sum - (rows.map Row.cogs).sum - (rows.map Row.opex).sum,
      [some (if 0 < (rows.map Row.revenue).sum then
        ((rows.map Row.revenue).sum - (rows.map Row.cogs).sum - (rows.map Row.opex).sum) /
          (rows.map Row.revenue).sum
        else 0)],
      rows.map (fun r => r.revenue - r.cogs - r.opex),
      rows.map (fun r => divP (r.revenue - r.cogs - r.opex) r.revenue), ?_, ?_, heb.symm⟩
    · simp [getDataOverall]
    · simp [getDataFiltered]

/-- Witness for C5 at the metric `revenue` over a concrete two-row list. -/
theorem c5_aggregate_consistency_witness :
    "revenue" ∈ validMetrics ∧
    (∃ v ps vs pps,
      getDataOverall "revenue" [⟨"A", "P", 4, 1, 1⟩, ⟨"B", "Q", 5, 1, 1⟩] true = .ok ([v], ps) ∧
      getDataFiltered "revenue" [⟨"A", "P", 4, 1, 1⟩, ⟨"B", "Q", 5, 1, 1⟩] true = .ok (vs, pps) ∧
      v = vs.sum) :=
  ⟨by decide,
   (c5_aggregate_consistency [⟨"A", "P", 4, 1, 1⟩, ⟨"B", "Q", 5, 1, 1⟩]).2.2 "revenue" (by decide)⟩

/-! ### Lemmas about the fuzzy-matching scan -/

theorem extractBest_eq_or_mem (score : String → String → ℕ) (q : String) :
    ∀ (cs : List String) (cur : String × ℕ),
      extractBest score q cur cs = cur ∨
        ((extractBest score q cur cs).1 ∈ cs ∧
          (extractBest score q cur cs).2 = score q (extractBest score q cur cs).1) := by
  intro cs
  induction cs with
  | nil => intro cur; exact Or.inl rfl
  | cons c cs ih =>
    intro cur
    rw [extractBest]
    rcases ih (if cur.2 < score q c then (c, score q c) else cur) with h | h
    · rw [h]
      split_ifs with hlt
      · exact Or.inr ⟨List.mem_cons_self _ _, rfl⟩
      · exact Or.inl rfl
    · exact Or.inr ⟨List.mem_cons_of_mem _ h.1, h.2⟩

theorem extractBest_le (score : String → String → ℕ) (q : String) :
    ∀ (cs : List String) (cur : String × ℕ), cur.2 ≤ (extractBest score q cur cs).2 := by
  intro cs
  induction cs with
  | nil => intro cur; exact le_refl _
  | cons c cs ih =>
    intro cur
    rw [extractBest]
    refine le_trans ?_ (ih _)
    split_ifs with hlt
    · exact le_of_lt hlt
    · exact le_refl _

theorem extractBest_bound (score : String → String → ℕ) (q : String) :
    ∀ (cs : List String) (cur : String × ℕ) (c : String), c ∈ cs →
      score q c ≤ (extractBest score q cur cs).2 := by
  intro cs
  induction cs with
  | nil => intro cur c hc; cases hc
  | cons c0 cs ih =>
    intro cur c hc
    rw [extractBest]
    rcases List.mem_cons.mp hc with rfl | hc'
    · refine le_trans ?_ (extractBest_le score q cs _)
      split_ifs with hlt
      · exact le_refl _
      · exact le_of_not_lt hlt
    · exact ih _ c hc'

theorem extractOne_spec (score : String → String → ℕ) (q : String) (names : List String)
    (h : names ≠ []) :
    ∃ best s, extractOne score q names = some (best, s) ∧ best ∈ names ∧
      s = score q best ∧ ∀ nm ∈ names, score q nm ≤ s := by
  match names with
  | [] => exact absurd rfl h
  | c :: cs =>
    refine ⟨(extractBest score q (c, score q c) cs).1, (extractBest score q (c, score q c) cs).2,
      rfl, ?_, ?_, ?_⟩
    · rcases extractBest_eq_or_mem score q cs (c, score q c) with h1 | h1
      · rw [h1]; exact List.mem_cons_self _ _
      · exact List.mem_cons_of_mem _ h1.1
    · rcases extractBest_eq_or_mem score q cs (c, score q c) with h1 | h1
      · rw [h1]
      · exact h1.2
    · intro nm hnm
      rcases List.mem_cons.mp hnm with rfl | hnm'
      · exact extractBest_le score q cs (nm, score q nm)
      · exact extractBest_bound score q cs _ nm hnm'

/-! ### Lemmas about the modelled edit-distance similarity -/

theorem levF_self : ∀ (fuel : ℕ) (xs : List Char), levF fuel xs xs = 0 := by
  intro fuel xs
  induction xs generalizing fuel with
  | nil => simp [levF]
  | cons x xs ih =>
    cases fuel with
    | zero => simp [levF]
    | succ f => simp [levF, ih]

theorem levF_eq_zero : ∀ (fuel : ℕ) (xs ys : List Char),
    xs.length + ys.length ≤ fuel → levF fuel xs ys = 0 → xs = ys := by
  intro fuel
  induction fuel with
  | zero =>
    intro xs ys hlen h
    cases xs with
    | nil =>
      cases ys with
      | nil => rfl
      | cons y ys => simp at hlen
    | cons x xs => simp at hlen
  | succ f ih =>
    intro xs ys hlen h
    cases xs with
    | nil =>
      cases ys with
      | nil => rfl
      | cons y ys => simp [levF] at h
    | cons x xs =>
      cases ys with
      | nil => simp [levF] at h
      | cons y ys =>
        simp only [levF] at h
        by_cases hxy : x = y
        · rw [if_pos hxy] at h
          have hlen' : xs.length + ys.length ≤ f := by
            simp only [List.length_cons] at hlen
            omega
          rw [hxy, ih xs ys hlen' h]
        · rw [if_neg hxy] at h
          omega

theorem lev_self (xs : List Char) : lev xs xs = 0 := levF_self _ _

theorem lev_pos_of_ne (xs ys : List Char) (h : xs ≠ ys) : 1 ≤ lev xs ys := by
  rcases Nat.eq_zero_or_pos (lev xs ys) with h0 | h0
  · exact absurd (levF_eq_zero _ xs ys (le_refl _) h0) h
  · exact h0

theorem specSimilarity_self (a : String) : specSimilarity a a = 100 := by
  unfold specSimilarity
  simp only [max_self, lev_self]
  by_cases h : a.data.length = 0
  · rw [if_pos h]
  · rw [if_neg h, Nat.sub_zero, Nat.mul_div_cancel_left 100 (Nat.pos_of_ne_zero h)]

theorem specSimilarity_lt_of_ne (a b : String) (h : a ≠ b) : specSimilarity a b < 100 := by
  have hd : a.data ≠ b.data := by
    intro he
    apply h
    cases a
    cases b
    exact congrArg String.mk he
  unfold specSimilarity
  have hm0 : max a.data.length b.data.length ≠ 0 := by
    intro h0
    rcases Nat.max_eq_zero_iff.mp h0 with ⟨ha, hb⟩
    exact hd (by rw [List.length_eq_zero.mp ha, List.length_eq_zero.mp hb])
  have hlev : 1 ≤ lev a.data b.data := lev_pos_of_ne _ _ hd
  simp only [if_neg hm0]
  refine (Nat.div_lt_iff_lt_mul (Nat.pos_of_ne_zero hm0)).mpr ?_
  have hsub : max a.data.length b.data.length - lev a.data b.data ≤
      max a.data.length b.data.length - 1 := Nat.sub_le_sub_left hlev _
  have hpos : 1 ≤ max a.data.length b.data.length := Nat.pos_of_ne_zero hm0
  omega

/-! ### C6 -/

/-- C6: every entity-resolution step accepts its fuzzy match exactly when the
best similarity score is strictly greater than 80; otherwise it fails with
the "no close match" error carrying the best (rejected) candidate as the
"did you mean" hint, and `get_data`, `list_customer_projects` and
`list_project_customers` all propagate that failure instead of returning a
result. -/
theorem c6_confidence_threshold :
    (∀ (score : String → String → ℕ) (kind q : String) (names : List String),
      names ≠ [] →
      ∃ best s, extractOne score q names = some (best, s) ∧ best ∈ names ∧
        s = score q best ∧ (∀ nm ∈ names, score q nm ≤ s) ∧
        (80 < s ↔ resolveName score kind q names = .ok best) ∧
        (s ≤ 80 → resolveName score kind q names = .error (.noMatch kind q best))) ∧
    (∀ (score : String → String → ℕ) (metric q : String) (l : Ledger) (e : Err),
      (q ≠ "" →
        resolveName score "customer" q (uniqueList (l.rows.map Row.customerName)) = .error e →
        getData score metric (some q) none l = .error e) ∧
      (resolveName score "customer" q (uniqueList (l.rows.map Row.customerName)) = .error e →
        listCustomerProjects score q l = .error e) ∧
      (resolveName score "project" q (uniqueList (l.rows.map Row.projectName)) = .error e →
        listProjectCustomers score q l = .error e)) := by
  constructor
  · intro score kind q names h
    obtain ⟨best, s, hone, hmem, hscore, hmax⟩ := extractOne_spec score q names h
    refine ⟨best, s, hone, hmem, hscore, hmax, ?_, ?_⟩
    · constructor
      · intro hgt
        simp only [resolveName, hone]
        rw [if_pos hgt]
      · intro hok
        by_contra hle
        simp only [resolveName, hone] at hok
        rw [if_neg hle] at hok
        exact Except.noConfusion hok
    · intro hle
      simp only [resolveName, hone]
      rw [if_neg (not_lt.mpr hle)]
  · intro score metric q l e
    refine ⟨?_, ?_, ?_⟩
    · intro hq hres
      unfold getData
      have ht : truthy (some q) = true := by simp [truthy, hq]
      rw [ht]
      simp only [if_true]
      rw [show (some q).getD "" = q from rfl, hres]
    · intro hres
      unfold listCustomerProjects
      rw [hres]
    · intro hres
      unfold listProjectCustomers
      rw [hres]

/-- Witness for C6 at a concrete rejected query. -/
theorem c6_confidence_threshold_witness :
    (["Acme", "Zed"] : List String) ≠ [] ∧
    (∃ best s, extractOne specSimilarity "Qqq" ["Acme", "Zed"] = some (best, s) ∧
      best ∈ ["Acme", "Zed"] ∧ s = specSimilarity "Qqq" best ∧
      (∀ nm ∈ ["Acme", "Zed"], specSimilarity "Qqq" nm ≤ s) ∧
      (80 < s ↔ resolveName specSimilarity "customer" "Qqq" ["Acme", "Zed"] = .ok best) ∧
      (s ≤ 80 → resolveName specSimilarity "customer" "Qqq" ["Acme", "Zed"] =
        .error (.noMatch "customer" "Qqq" best))) :=
  ⟨by decide, c6_confidence_threshold.1 specSimilarity "customer" "Qqq" ["Acme", "Zed"] (by decide)⟩

/-! ### C8 -/

theorem extractBest_keep (score : String → String → ℕ) (q : String) :
    ∀ (cs : List String) (cur : String × ℕ), cur.2 = 100 →
      (∀ c ∈ cs, score q c ≤ 100) → extractBest score q cur cs = cur := by
  intro cs
  induction cs with
  | nil => intro cur _ _; rfl
  | cons c cs ih =>
    intro cur hcur hub
    rw [extractBest]
    have hnot : ¬ cur.2 < score q c := by
      rw [hcur]
      exact not_lt.mpr (hub c (List.mem_cons_self _ _))
    rw [if_neg hnot]
    exact ih cur hcur (fun x hx => hub x (List.mem_cons_of_mem _ hx))

theorem extractBest_finds (score : String → String → ℕ) (q : String)
    (h100 : score q q = 100) (hlt : ∀ c, c ≠ q → score q c < 100) :
    ∀ (cs : List String) (cur : String × ℕ), q ∈ cs → cur.2 < 100 →
      extractBest score q cur cs = (q, 100) := by
  have hub : ∀ c, score q c ≤ 100 := by
    intro c
    by_cases hc : c = q
    · rw [hc, h100]
    · exact le_of_lt (hlt c hc)
  intro cs
  induction cs with
  | nil => intro cur hmem _; cases hmem
  | cons c cs ih =>
    intro cur hmem hcur
    rw [extractBest]
    by_cases hc : c = q
    · subst hc
      rw [if_pos (by rw [h100]; exact hcur)]
      rw [h100]
      exact extractBest_keep score c cs (c, 100) rfl (fun x _ => hub x)
    · have hmem' : q ∈ cs := by
        rcases List.mem_cons.mp hmem with h | h
        · exact absurd h.symm hc
        · exact h
      have hX : (if cur.2 < score q c then (c, score q c) else cur).2 < 100 := by
        split_ifs with hl
        · exact hlt c hc
        · exact hcur
      exact ih _ hmem' hX

/-- C8: entity resolution is idempotent — a query that exactly equals a
canonical name in the candidate set resolves to that very name with
confidence 100, hence the 80-point threshold is passed and the filter is
accepted. -/
theorem c8_exact_resolution (kind q : String) (names : List String) (hq : q ∈ names) :
    extractOne specSimilarity q names = some (q, 100) ∧
    resolveName specSimilarity kind q names = .ok q := by
  have h100 := specSimilarity_self q
  have hlt : ∀ c, c ≠ q → specSimilarity q c < 100 := fun c hc =>
    specSimilarity_lt_of_ne q c (fun e => hc e.symm)
  have hub : ∀ c, specSimilarity q c ≤ 100 := by
    intro c
    by_cases hc : c = q
    · rw [hc, h100]
    · exact le_of_lt (hlt c hc)
  have hone : extractOne specSimilarity q names = some (q, 100) := by
    match names with
    | [] => cases hq
    | c :: cs =>
      rw [extractOne]
      by_cases hc : c = q
      · subst hc
        rw [h100, extractBest_keep specSimilarity c cs (c, 100) rfl (fun x _ => hub x)]
      · have hmem : q ∈ cs := by
          rcases List.mem_cons.mp hq with h | h
          · exact absurd h.symm hc
          · exact h
        rw [extractBest_finds specSimilarity q h100 hlt cs _ hmem (hlt c hc)]
  refine ⟨hone, ?_⟩
  simp only [resolveName, hone]
  rw [if_pos (by norm_num : (80 : ℕ) < 100)]

/-- Witness for C8 at a concrete canonical name. -/
theorem c8_exact_resolution_witness :
    "Acme" ∈ (["Zed", "Acme"] : List String) ∧
    (extractOne specSimilarity "Acme" ["Zed", "Acme"] = some ("Acme", 100) ∧
      resolveName specSimilarity "customer" "Acme" ["Zed", "Acme"] = .ok "Acme") :=
  ⟨by decide, c8_exact_resolution "customer" "Acme" ["Zed", "Acme"] (by decide)⟩

/-! ### Lemmas about validation, projection and error propagation -/

theorem validateMetrics_ok : ∀ (ms : List String),
    (∀ x ∈ ms, pyLower x ∈ validMetrics) → validateMetrics ms = .ok () := by
  intro ms
  induction ms with
  | nil => intro _; rfl
  | cons a ms ih =>
    intro h
    rw [validateMetrics, if_pos (h a (List.mem_cons_self _ _))]
    exact ih (fun x hx => h x (List.mem_cons_of_mem _ hx))

theorem validateMetrics_error : ∀ (ms : List String),
    (∃ m ∈ ms, pyLower m ∉ validMetrics) →
    ∃ m0, validateMetrics ms = .error (.unknownMetric m0 validMetrics) ∧
      m0 ∈ ms ∧ pyLower m0 ∉ validMetrics := by
  intro ms
  induction ms with
  | nil => rintro ⟨m, hm, _⟩; cases hm
  | cons a ms ih =>
    rintro ⟨m, hm, hbad⟩
    by_cases ha : pyLower a ∈ validMetrics
    · have hrest : ∃ m ∈ ms, pyLower m ∉ validMetrics := by
        rcases List.mem_cons.mp hm with rfl | h
        · exact absurd ha hbad
        · exact ⟨m, h, hbad⟩
      obtain ⟨m0, hv, hmem, hb⟩ := ih hrest
      exact ⟨m0, by rw [validateMetrics, if_pos ha]; exact hv,
        List.mem_cons_of_mem _ hmem, hb⟩
    · exact ⟨a, by rw [validateMetrics, if_neg ha], List.mem_cons_self _ _, ha⟩

theorem lookup_entityMetrics_none (m : String) (a b c : ℚ) (hm : m ∉ validMetrics) :
    (entityMetrics a b c).lookup m = none := by
  have h1 : (m == "revenue") = false := by
    refine beq_eq_false_iff_ne.mpr (fun h => hm ?_)
    rw [h]; simp [validMetrics]
  have h2 : (m == "gross_margin") = false := by
    refine beq_eq_false_iff_ne.mpr (fun h => hm ?_)
    rw [h]; simp [validMetrics]
  have h3 : (m == "ebitda") = false := by
    refine beq_eq_false_iff_ne.mpr (fun h => hm ?_)
    rw [h]; simp [validMetrics]
  simp [entityMetrics, List.lookup, h1, h2, h3]

theorem lookup_entityMetrics_some (m : String) (a b c : ℚ) (hm : m ∈ validMetrics) :
    ∃ cell, (entityMetrics a b c).lookup m = some cell := by
  rcases (by simpa [validMetrics] using hm :
      m = "revenue" ∨ m = "gross_margin" ∨ m = "ebitda") with rfl | rfl | rfl
  · exact ⟨⟨a, 1⟩, by simp [entityMetrics, List.lookup]⟩
  · exact ⟨⟨a - b, if 0 < a then (a - b) / a else 0⟩, by simp [entityMetrics, List.lookup]⟩
  · exact ⟨⟨a - b - c, if 0 < a then (a - b - c) / a else 0⟩, by
      simp [entityMetrics, List.lookup]⟩

theorem projectMetrics_error_keyError : ∀ (ms : List String)
    (em : List (String × MetricCell)) (e : Err),
    projectMetrics em ms = .error e → ∃ k, e = .keyError k := by
  intro ms
  induction ms with
  | nil => intro em e h; cases h
  | cons m ms ih =>
    intro em e h
    rw [projectMetrics] at h
    cases hl : em.lookup m with
    | none =>
      rw [hl] at h
      exact ⟨m, (Except.error.inj h).symm⟩
    | some c =>
      rw [hl] at h
      cases hr : projectMetrics em ms with
      | error e2 =>
        rw [hr] at h
        obtain ⟨k, hk⟩ := ih em e2 hr
        exact ⟨k, by rw [← Except.error.inj h, hk]⟩
      | ok rest => rw [hr] at h; cases h

theorem projectMetrics_entity_error (ms : List String)
    (hbad : ∃ m ∈ ms, m ∉ validMetrics) :
    ∃ k, k ∈ ms ∧ k ∉ validMetrics ∧ ∀ a b c : ℚ,
      projectMetrics (entityMetrics a b c) ms = .error (.keyError k) := by
  induction ms with
  | nil => obtain ⟨m, hm, _⟩ := hbad; cases hm
  | cons m rest ih =>
    by_cases hm : m ∈ validMetrics
    · have hrest : ∃ x ∈ rest, x ∉ validMetrics := by
        obtain ⟨x, hx, hxbad⟩ := hbad
        rcases List.mem_cons.mp hx with rfl | h
        · exact absurd hm hxbad
        · exact ⟨x, h, hxbad⟩
      obtain ⟨k, hkmem, hkbad, herr⟩ := ih hrest
      refine ⟨k, List.mem_cons_of_mem _ hkmem, hkbad, fun a b c => ?_⟩
      obtain ⟨cell, hcell⟩ := lookup_entityMetrics_some m a b c hm
      rw [projectMetrics, hcell, herr a b c]
    · refine ⟨m, List.mem_cons_self _ _, hm, fun a b c => ?_⟩
      rw [projectMetrics, lookup_entityMetrics_none m a b c hm]

theorem exceptMap_error_cases : ∀ (l : List α) (f : α → Except Err β) (e : Err),
    exceptMap f l = .error e → ∃ a ∈ l, f a = .error e := by
  intro l
  induction l with
  | nil => intro f e h; cases h
  | cons a l ih =>
    intro f e h
    rw [exceptMap] at h
    cases hf : f a with
    | error e2 =>
      rw [hf] at h
      exact ⟨a, List.mem_cons_self _ _, by rw [hf, Except.error.inj h]⟩
    | ok b =>
      rw [hf] at h
      cases hr : exceptMap f l with
      | error e2 =>
        rw [hr] at h
        obtain ⟨x, hx, hfx⟩ := ih f e2 hr
        exact ⟨x, List.mem_cons_of_mem _ hx, by rw [hfx, Except.error.inj h]⟩
      | ok bs => rw [hr] at h; cases h

theorem resolveName_error_cases (score : String → String → ℕ) (kind q : String)
    (names : List String) (e : Err) (h : resolveName score kind q names = .error e) :
    e = .typeError ∨ ∃ b, e = .noMatch kind q b := by
  rw [resolveName] at h
  cases ho : extractOne score q names with
  | none =>
    rw [ho] at h
    exact Or.inl (Except.error.inj h).symm
  | some p =>
    obtain ⟨b, s⟩ := p
    simp only [ho] at h
    by_cases hs : 80 < s
    · rw [if_pos hs] at h; cases h
    · rw [if_neg hs] at h
      exact Or.inr ⟨b, (Except.error.inj h).symm⟩

theorem getDataOverall_not_unknown (m : String) (hm : m ∈ validMetrics) (rows : List Row)
    (h : Bool) (s0 : String) (av : List String) :
    getDataOverall m rows h ≠ .error (.unknownMetric s0 av) := by
  rcases (by simpa [validMetrics] using hm :
      m = "revenue" ∨ m = "gross_margin" ∨ m = "ebitda") with rfl | rfl | rfl
  · simp [getDataOverall]
  · simp [getDataOverall]
  · cases h <;> simp [getDataOverall]

theorem getDataFiltered_not_unknown (m : String) (hm : m ∈ validMetrics) (rows : List Row)
    (h : Bool) (s0 : String) (av : List String) :
    getDataFiltered m rows h ≠ .error (.unknownMetric s0 av) := by
  rcases (by simpa [validMetrics] using hm :
      m = "revenue" ∨ m = "gross_margin" ∨ m = "ebitda") with rfl | rfl | rfl
  · simp [getDataFiltered]
  · simp [getDataFiltered]
  · cases h <;> simp [getDataFiltered]

theorem getDataCompute_not_unknown (m : String) (hm : pyLower m ∈ validMetrics)
    (c1 p1 : Option String) (rows : List Row) (h : Bool) (s0 : String) (av : List String) :
    getDataCompute m c1 p1 rows h ≠ .error (.unknownMetric s0 av) := by
  unfold getDataCompute
  split
  · exact getDataOverall_not_unknown _ hm rows h s0 av
  · exact getDataFiltered_not_unknown _ hm rows h s0 av

theorem getDataProject_not_unknown (score : String → String → ℕ) (m : String)
    (hm : pyLower m ∈ validMetrics) (c1 p : Option String) (rows : List Row) (h : Bool)
    (s0 : String) (av : List String) :
    getDataProject score m c1 p rows h ≠ .error (.unknownMetric s0 av) := by
  unfold getDataProject
  cases hp : truthy p with
  | false =>
    simp only [hp, Bool.false_eq_true, if_false]
    exact getDataCompute_not_unknown _ hm _ _ _ _ _ _
  | true =>
    simp only [hp, if_true]
    cases hres : resolveName score "project" (p.getD "") (uniqueList (rows.map Row.projectName)) with
    | error e =>
      intro hcontra
      have he := Except.error.inj hcontra
      rcases resolveName_error_cases _ _ _ _ _ hres with h1 | ⟨b, h1⟩
      · rw [h1] at he; exact Err.noConfusion he
      · rw [h1] at he; exact Err.noConfusion he
    | ok p0 => exact getDataCompute_not_unknown _ hm _ _ _ _ _ _

theorem getData_not_unknown (score : String → String → ℕ) (m : String)
    (hm : pyLower m ∈ validMetrics) (c p : Option String) (l : Ledger)
    (s0 : String) (av : List String) :
    getData score m c p l ≠ .error (.unknownMetric s0 av) := by
  unfold getData
  cases hc : truthy c with
  | false =>
    simp only [hc, Bool.false_eq_true, if_false]
    exact getDataProject_not_unknown _ _ hm _ _ _ _ _ _
  | true =>
    simp only [hc, if_true]
    cases hres : resolveName score "customer" (c.getD "")
        (uniqueList (l.rows.map Row.customerName)) with
    | error e =>
      intro hcontra
      have he := Except.error.inj hcontra
      rcases resolveName_error_cases _ _ _ _ _ hres with h1 | ⟨b, h1⟩
      · rw [h1] at he; exact Err.noConfusion he
      · rw [h1] at he; exact Err.noConfusion he
    | ok c0 => exact getDataProject_not_unknown _ _ hm _ _ _ _ _ _

theorem summaryStep_error_keyError (l : Ledger) (f : Row → String) (ms : List String)
    (k : String) (e : Err)
    (h : ((match projectMetrics (entityMetrics (groupRevenue l f k) (groupCogs l f k)
            (groupOpex l f k)) ms with
          | .error e => Except.error e
          | .ok pm => Except.ok (k, groupRevenue l f k, pm)) :
            Except Err (String × ℚ × List (String × MetricCell))) = .error e) :
    ∃ k0, e = .keyError k0 := by
  cases hpm : projectMetrics (entityMetrics (groupRevenue l f k) (groupCogs l f k)
      (groupOpex l f k)) ms with
  | error e2 =>
    simp only [hpm] at h
    obtain ⟨k0, hk0⟩ := projectMetrics_error_keyError ms _ e2 hpm
    exact ⟨k0, by rw [← Except.error.inj h]; exact hk0⟩
  | ok pm => simp only [hpm] at h; cases h

theorem compareFinish_not_unknown (ms : List String) (l : Ledger)
    (summaries : List (String × ℚ × List (String × MetricCell))) (tN : Option Int)
    (s0 : String) (av : List String) :
    compareFinish ms l summaries tN ≠ .error (.unknownMetric s0 av) := by
  unfold compareFinish
  intro hcontra
  obtain ⟨p, _, hp⟩ := exceptMap_error_cases _ _ _ hcontra
  cases hpm : projectMetrics p.2 ms with
  | error e2 =>
    simp only [hpm] at hp
    obtain ⟨k0, hk0⟩ := projectMetrics_error_keyError ms _ e2 hpm
    rw [hk0] at hp
    exact Err.noConfusion (Except.error.inj hp)
  | ok pm => simp only [hpm] at hp; cases hp

theorem compareCore_not_unknown (f : Row → String) (ms : List String) (tN : Option Int)
    (l : Ledger) (s0 : String) (av : List String) :
    compareCore f ms tN l ≠ .error (.unknownMetric s0 av) := by
  unfold compareCore
  cases hes : entitySummaries l f ms with
  | error e =>
    unfold entitySummaries at hes
    obtain ⟨k, _, hk⟩ := exceptMap_error_cases _ _ _ hes
    obtain ⟨k0, hk0⟩ := summaryStep_error_keyError l f ms k e hk
    rw [hk0]
    intro hcontra
    exact Err.noConfusion (Except.error.inj hcontra)
  | ok summaries => exact compareFinish_not_unknown ms l summaries tN s0 av

/-! ### C7 -/

/-- Counterexample to C7 as stated: the metric string `"REVENUE"` lies
outside the enumeration `{revenue, gross_margin, ebitda}`, yet `get_data`
succeeds on it (the metric is lowercased before the membership test) instead
of failing with `UnknownMetric`. -/
theorem c7_counterexample :
    ("REVENUE" ∉ validMetrics) ∧
    getData specSimilarity "REVENUE" none none (⟨[⟨"Acme", "Alpha", 4, 1, 1⟩], true⟩ : Ledger) =
      .ok ([(([⟨"Acme", "Alpha", 4, 1, 1⟩] : List Row).map Row.revenue).sum], [some 1]) :=
  ⟨by decide, rfl⟩

/-- C7 amended: for every metric name whose lowercase form is outside the
enumeration, `get_data` fails with `UnknownMetric` (carrying the lowercased
name and the three valid names) and `compare_performance` fails with the
same error for any such name in its metrics list, before any grouping or
aggregation work; for names whose lowercase form is valid, neither operation
ever raises `UnknownMetric`. -/
theorem c7_unknown_metric_lowercased :
    (∀ m : String, pyLower m ∉ validMetrics →
      ∀ (score : String → String → ℕ) (l : Ledger),
        getData score m none none l = .error (.unknownMetric (pyLower m) validMetrics)) ∧
    (∀ (m et : String) (ms : List String) (tN : Option Int) (l : Ledger),
      m ∈ ms → pyLower m ∉ validMetrics →
      (pyLower et = "customer" ∨ pyLower et = "project") →
      ∃ m0, comparePerformance et (some ms) tN l = .error (.unknownMetric m0 validMetrics) ∧
        m0 ∈ ms ∧ pyLower m0 ∉ validMetrics) ∧
    (∀ m : String, pyLower m ∈ validMetrics →
      ∀ (score : String → String → ℕ) (c p : Option String) (l : Ledger) (s0 : String)
        (av : List String), getData score m c p l ≠ .error (.unknownMetric s0 av)) ∧
    (∀ (et : String) (ms : List String) (tN : Option Int) (l : Ledger),
      (∀ x ∈ ms, pyLower x ∈ validMetrics) →
      ∀ (s0 : String) (av : List String),
        comparePerformance et (some ms) tN l ≠ .error (.unknownMetric s0 av)) := by
  refine ⟨?_, ?_, ?_, ?_⟩
  · intro m hm score l
    have hred : getData score m none none l = getDataOverall (pyLower m) l.rows l.hasOPEX := rfl
    rw [hred]
    have h1 : (pyLower m == "gross_margin") = false :=
      beq_eq_false_iff_ne.mpr (fun h => hm (by rw [h]; simp [validMetrics]))
    have h2 : (pyLower m == "revenue") = false :=
      beq_eq_false_iff_ne.mpr (fun h => hm (by rw [h]; simp [validMetrics]))
    have h3 : (pyLower m == "ebitda") = false :=
      beq_eq_false_iff_ne.mpr (fun h => hm (by rw [h]; simp [validMetrics]))
    simp [getDataOverall, h1, h2, h3]
  · intro m et ms tN l hmem hbad het
    obtain ⟨m0, hval, hm0, hb0⟩ := validateMetrics_error ms ⟨m, hmem, hbad⟩
    refine ⟨m0, ?_, hm0, hb0⟩
    have hcond : (pyLower et == "customer" || pyLower et == "project") = true := by
      rcases het with h | h <;> simp [h]
    have hgd : comparePerformance et (some ms) tN l =
        match validateMetrics ms with
        | .error e => .error e
        | .ok _ => compareCore (keyFnOf et) ms tN l := by
      unfold comparePerformance
      rw [hcond]
      rfl
    rw [hgd]
    simp only [hval]
  · intro m hm score c p l s0 av
    exact getData_not_unknown score m hm c p l s0 av
  · intro et ms tN l hall s0 av
    unfold comparePerformance
    cases hcond : (pyLower et == "customer" || pyLower et == "project") with
    | false =>
      simp only [hcond, Bool.not_false, if_true]
      intro hcontra
      exact Err.noConfusion (Except.error.inj hcontra)
    | true =>
      simp only [hcond, Bool.not_true, Bool.false_eq_true, if_false, Option.getD_some]
      rw [validateMetrics_ok ms hall]
      exact compareCore_not_unknown _ _ _ _ _ _

/-- Witness for the amended C7 at a concrete invalid and a concrete valid
metric name. -/
theorem c7_unknown_metric_lowercased_witness :
    (pyLower "margin" ∉ validMetrics ∧
      getData specSimilarity "margin" none none (⟨[], true⟩ : Ledger) =
        .error (.unknownMetric (pyLower "margin") validMetrics)) ∧
    (pyLower "Revenue" ∈ validMetrics ∧
      getData specSimilarity "Revenue" none none (⟨[], true⟩ : Ledger) ≠
        .error (.unknownMetric "x" validMetrics)) :=
  ⟨⟨by decide, c7_unknown_metric_lowercased.1 "margin" (by decide) specSimilarity ⟨[], true⟩⟩,
   ⟨by decide, c7_unknown_metric_lowercased.2.2.1 "Revenue" (by decide) specSimilarity
      none none ⟨[], true⟩ "x" validMetrics⟩⟩

/-! ### C9 -/

/-- C9: a valid metric written in non-lowercase form passes the fail-fast
validation (which lowercases only for the membership test) but the
per-entity projection then subscripts the lowercase-keyed metric mapping
with the original string, so `compare_performance` raises a `KeyError`-style
lookup failure instead of returning a result or an `UnknownMetric` error. -/
theorem c9_case_mismatch_keyerror (et : String) (ms : List String) (tN : Option Int)
    (l : Ledger) (het : pyLower et = "customer" ∨ pyLower et = "project")
    (hval : ∀ x ∈ ms, pyLower x ∈ validMetrics)
    (hbad : ∃ x ∈ ms, x ∉ validMetrics) :
    ∃ k, comparePerformance et (some ms) tN l = .error (.keyError k) ∧
      k ∈ ms ∧ k ∉ validMetrics := by
  obtain ⟨k, hkmem, hkbad, herr⟩ := projectMetrics_entity_error ms hbad
  refine ⟨k, ?_, hkmem, hkbad⟩
  have hcond : (pyLower et == "customer" || pyLower et == "project") = true := by
    rcases het with h | h <;> simp [h]
  have hgd : comparePerformance et (some ms) tN l =
      match validateMetrics ms with
      | .error e => .error e
      | .ok _ => compareCore (keyFnOf et) ms tN l := by
    unfold comparePerformance
    rw [hcond]
    rfl
  rw [hgd]
  rw [validateMetrics_ok ms hval]
  unfold compareCore
  cases hgk : groupKeys l (keyFnOf et) with
  | nil =>
    have hes : entitySummaries l (keyFnOf et) ms = .ok [] := by
      unfold entitySummaries
      rw [hgk]
      rfl
    simp only [hes]
    cases tN with
    | none => simp [compareFinish, truncateSummaries, dictInsert, exceptMap, herr]
    | some n =>
      by_cases hn : 0 < n <;>
        simp [compareFinish, truncateSummaries, dictInsert, exceptMap, herr, hn]
  | cons g gs =>
    have hes : entitySummaries l (keyFnOf et) ms = .error (.keyError k) := by
      unfold entitySummaries
      rw [hgk]
      rw [exceptMap]
      simp only [herr]
    simp only [hes]

/-- Witness for C9 at the concrete metrics list `["Revenue"]`. -/
theorem c9_case_mismatch_keyerror_witness :
    ∃ k, comparePerformance "customer" (some ["Revenue"]) none
        (⟨[⟨"Acme", "Alpha", 4, 1, 1⟩], true⟩ : Ledger) = .error (.keyError k) ∧
      k ∈ ["Revenue"] ∧ k ∉ validMetrics :=
  c9_case_mismatch_keyerror "customer" ["Revenue"] none ⟨[⟨"Acme", "Alpha", 4, 1, 1⟩], true⟩
    (Or.inl (by decide)) (by decide) ⟨"Revenue", by decide, by decide⟩

/-! ### C2 -/

/-- Counterexample to C2 as stated: with the customer filter resolved to
`Acme`, a project (`Zeta`) that matches no project of that customer makes
`get_data` raise the "no close match" error — it does not return an empty
result. -/
theorem c2_counterexample :
    getData specSimilarity "revenue" (some "Acme") (some "Zeta")
        (⟨[⟨"Acme", "Alpha", 4, 1, 1⟩, ⟨"Zed", "Zeta", 5, 1, 1⟩], true⟩ : Ledger) =
      .error (.noMatch "project" "Zeta" "Alpha") := by decide

/-- C2 amended: the customer filter is resolved and applied first and the
project filter is resolved second against the already customer-narrowed
rows (sequential AND); when the supplied project fails to match (score at
most 80) among the resolved customer's projects, the call raises the
no-confident-match error whose hint is drawn from that customer's projects,
rather than returning an empty result; when it does match, the rows are
those passing both filters in sequence. -/
theorem c2_sequential_resolution (score : String → String → ℕ) (metric c p : String)
    (l : Ledger) (c0 : String) (hc : c ≠ "") (hp : p ≠ "") (hc0 : c0 ≠ "")
    (hres : resolveName score "customer" c (uniqueList (l.rows.map Row.customerName)) = .ok c0) :
    ∀ best s,
      extractOne score p (uniqueList
        ((l.rows.filter (fun r => r.customerName == c0)).map Row.projectName)) = some (best, s) →
      ((s ≤ 80 →
        getData score metric (some c) (some p) l = .error (.noMatch "project" p best) ∧
        best ∈ uniqueList
          ((l.rows.filter (fun r => r.customerName == c0)).map Row.projectName)) ∧
      (80 < s →
        getData score metric (some c) (some p) l =
          getDataFiltered (pyLower metric)
            ((l.rows.filter (fun r => r.customerName == c0)).filter
              (fun r => r.projectName == best)) l.hasOPEX)) := by
  intro best s hone
  have ht : truthy (some c) = true := by simp [truthy, hc]
  have htp : truthy (some p) = true := by simp [truthy, hp]
  have htc0 : truthy (some c0) = true := by simp [truthy, hc0]
  have hstep : getData score metric (some c) (some p) l =
      getDataProject score metric (some c0) (some p)
        (l.rows.filter (fun r => r.customerName == c0)) l.hasOPEX := by
    unfold getData
    rw [ht]
    simp only [if_true, Option.getD_some, hres]
  rw [hstep]
  unfold getDataProject
  rw [htp]
  simp only [if_true, Option.getD_some]
  constructor
  · intro hle
    have hrn : resolveName score "project" p (uniqueList
        ((l.rows.filter (fun r => r.customerName == c0)).map Row.projectName)) =
        .error (.noMatch "project" p best) := by
      simp only [resolveName, hone]
      rw [if_neg (not_lt.mpr hle)]
    constructor
    · simp only [hrn]
    · have hne : uniqueList
          ((l.rows.filter (fun r => r.customerName == c0)).map Row.projectName) ≠ [] := by
        intro h0
        rw [h0] at hone
        cases hone
      obtain ⟨b2, s2, hone2, hmem2, _, _⟩ := extractOne_spec score p _ hne
      rw [hone] at hone2
      have hb : best = b2 := congrArg Prod.fst (Option.some.inj hone2)
      rw [hb]
      exact hmem2
  · intro hgt
    have hrn : resolveName score "project" p (uniqueList
        ((l.rows.filter (fun r => r.customerName == c0)).map Row.projectName)) = .ok best := by
      simp only [resolveName, hone]
      rw [if_pos hgt]
    simp only [hrn]
    unfold getDataCompute
    rw [htc0]
    simp only [Bool.not_true, Bool.false_and, Bool.false_eq_true, if_false]

/-- Witness for the amended C2 at the concrete rejected project. -/
theorem c2_sequential_resolution_witness :
    getData specSimilarity "revenue" (some "Acme") (some "Zeta")
        (⟨[⟨"Acme", "Alpha", 4, 1, 1⟩, ⟨"Zed", "Zeta", 5, 1, 1⟩], true⟩ : Ledger) =
      .error (.noMatch "project" "Zeta" "Alpha") ∧
    "Alpha" ∈ uniqueList
      (((⟨[⟨"Acme", "Alpha", 4, 1, 1⟩, ⟨"Zed", "Zeta", 5, 1, 1⟩], true⟩ : Ledger).rows.filter
        (fun r => r.customerName == "Acme")).map Row.projectName) :=
  (c2_sequential_resolution specSimilarity "revenue" "Acme" "Zeta"
      ⟨[⟨"Acme", "Alpha", 4, 1, 1⟩, ⟨"Zed", "Zeta", 5, 1, 1⟩], true⟩ "Acme"
      (by decide) (by decide) (by decide) (by decide) "Alpha"
      (specSimilarity "Zeta" "Alpha") (by decide)).1 (by decide)

/-! ### C1 -/

/-- Counterexample to C1 as stated: on a ledger without the `OPEX` column,
`get_data` for `ebitda` raises a `KeyError` on the missing column instead of
treating OPEX as zero and succeeding. -/
theorem c1_counterexample :
    getData specSimilarity "ebitda" none none
        (⟨[⟨"Acme", "Alpha", 4, 1, 1⟩], false⟩ : Ledger) =
      .error (.keyError "OPEX") := by decide

theorem keyFnOf_zero (et : String) (r : Row) :
    keyFnOf et { r with opex := 0 } = keyFnOf et r := by
  unfold keyFnOf
  split <;> rfl

theorem exceptMap_congr : ∀ (l : List α) (f g : α → Except Err β),
    (∀ a ∈ l, f a = g a) → exceptMap f l = exceptMap g l := by
  intro l
  induction l with
  | nil => intro f g _; rfl
  | cons a l ih =>
    intro f g h
    rw [exceptMap, exceptMap, h a (List.mem_cons_self _ _),
      ih f g (fun x hx => h x (List.mem_cons_of_mem _ hx))]

theorem groupRows_zeroOpex (l : Ledger) (f : Row → String) (k : String)
    (hf : ∀ r, f { r with opex := 0 } = f r) :
    groupRows (withZeroOpex l) f k = (groupRows l f k).map (fun r => { r with opex := 0 }) := by
  unfold groupRows withZeroOpex
  rw [List.filter_map]
  congr 1
  exact List.filter_congr (fun r _ => by simp [Function.comp, hf r])

theorem groupRevenue_zeroOpex (l : Ledger) (f : Row → String) (k : String)
    (hf : ∀ r, f { r with opex := 0 } = f r) :
    groupRevenue (withZeroOpex l) f k = groupRevenue l f k := by
  unfold groupRevenue
  rw [groupRows_zeroOpex l f k hf, List.map_map]
  rfl

theorem groupCogs_zeroOpex (l : Ledger) (f : Row → String) (k : String)
    (hf : ∀ r, f { r with opex := 0 } = f r) :
    groupCogs (withZeroOpex l) f k = groupCogs l f k := by
  unfold groupCogs
  rw [groupRows_zeroOpex l f k hf, List.map_map]
  rfl

theorem groupOpex_zeroOpex (l : Ledger) (f : Row → String) (k : String)
    (hl : l.hasOPEX = false) (hf : ∀ r, f { r with opex := 0 } = f r) :
    groupOpex (withZeroOpex l) f k = groupOpex l f k := by
  unfold groupOpex
  rw [hl]
  have h1 : (withZeroOpex l).hasOPEX = true := rfl
  rw [h1]
  simp only [if_true, Bool.false_eq_true, if_false]
  refine List.sum_eq_zero ?_
  intro x hx
  obtain ⟨r, hr, hrx⟩ := List.mem_map.mp hx
  rw [groupRows_zeroOpex l f k hf] at hr
  obtain ⟨r0, _, hr0⟩ := List.mem_map.mp hr
  rw [← hrx, ← hr0]

theorem groupKeys_zeroOpex (l : Ledger) (f : Row → String)
    (hf : ∀ r, f { r with opex := 0 } = f r) :
    groupKeys (withZeroOpex l) f = groupKeys l f := by
  unfold groupKeys withZeroOpex
  rw [List.map_map]
  congr 2
  exact List.map_congr_left (fun r _ => hf r)

theorem entitySummaries_zeroOpex (l : Ledger) (f : Row → String) (ms : List String)
    (hl : l.hasOPEX = false) (hf : ∀ r, f { r with opex := 0 } = f r) :
    entitySummaries (withZeroOpex l) f ms = entitySummaries l f ms := by
  unfold entitySummaries
  rw [groupKeys_zeroOpex l f hf]
  refine exceptMap_congr _ _ _ (fun k _ => ?_)
  rw [groupRevenue_zeroOpex l f k hf, groupCogs_zeroOpex l f k hf,
    groupOpex_zeroOpex l f k hl hf]

theorem compareFinish_zeroOpex (ms : List String) (l : Ledger)
    (summaries : List (String × ℚ × List (String × MetricCell))) (tN : Option Int)
    (hl : l.hasOPEX = false) :
    compareFinish ms (withZeroOpex l) summaries tN = compareFinish ms l summaries tN := by
  unfold compareFinish
  have h1 : (withZeroOpex l).rows.map Row.revenue = l.rows.map Row.revenue := by
    unfold withZeroOpex
    rw [List.map_map]
    rfl
  have h2 : (withZeroOpex l).rows.map Row.cogs = l.rows.map Row.cogs := by
    unfold withZeroOpex
    rw [List.map_map]
    rfl
  have h3 : (if (withZeroOpex l).hasOPEX then ((withZeroOpex l).rows.map Row.opex).sum else 0) =
      (if l.hasOPEX then (l.rows.map Row.opex).sum else 0) := by
    rw [hl]
    have h4 : (withZeroOpex l).hasOPEX = true := rfl
    rw [h4]
    simp only [if_true, Bool.false_eq_true, if_false]
    refine List.sum_eq_zero ?_
    intro x hx
    obtain ⟨r, hr, hrx⟩ := List.mem_map.mp hx
    unfold withZeroOpex at hr
    obtain ⟨r0, _, hr0⟩ := List.mem_map.mp hr
    rw [← hrx, ← hr0]
  rw [h1, h2, h3]

theorem compareCore_zeroOpex (et : String) (ms : List String) (tN : Option Int) (l : Ledger)
    (hl : l.hasOPEX = false) :
    compareCore (keyFnOf et) ms tN (withZeroOpex l) = compareCore (keyFnOf et) ms tN l := by
  unfold compareCore
  rw [entitySummaries_zeroOpex l (keyFnOf et) ms hl (keyFnOf_zero et)]
  cases hes : entitySummaries l (keyFnOf et) ms with
  | error e => rfl
  | ok summaries => exact compareFinish_zeroOpex ms l summaries tN hl

/-- C1 amended: when the `OPEX` column is absent, `compare_performance`
treats OPEX as zero (its result coincides with the result on the same
ledger carrying an all-zero OPEX column) and succeeds as far as OPEX is
concerned, but `get_data`'s `ebitda` evaluation does not: both its
unfiltered aggregate mode and its filtered per-row mode fail with a
`KeyError` on the missing column. -/
theorem c1_opex_missing (l : Ledger) (hl : l.hasOPEX = false) :
    (∀ score : String → String → ℕ,
      getData score "ebitda" none none l = .error (.keyError "OPEX")) ∧
    (∀ rows : List Row, getDataFiltered "ebitda" rows false = .error (.keyError "OPEX")) ∧
    (∀ (et : String) (msOpt : Option (List String)) (tN : Option Int),
      comparePerformance et msOpt tN l = comparePerformance et msOpt tN (withZeroOpex l)) := by
  refine ⟨?_, ?_, ?_⟩
  · intro score
    have h0 : getData score "ebitda" none none l =
        getDataOverall (pyLower "ebitda") l.rows l.hasOPEX := rfl
    have hpy : pyLower "ebitda" = "ebitda" := by decide
    rw [h0, hpy, hl]
    simp [getDataOverall]
  · intro rows
    simp [getDataFiltered]
  · intro et msOpt tN
    unfold comparePerformance
    cases hc : (pyLower et == "customer" || pyLower et == "project") with
    | false => simp only [hc, Bool.not_false, if_true]
    | true =>
      simp only [hc, Bool.not_true, Bool.false_eq_true, if_false]
      cases hv : validateMetrics (msOpt.getD ["revenue", "gross_margin", "ebitda"]) with
      | error e => simp only [hv]
      | ok u =>
        simp only [hv]
        exact (compareCore_zeroOpex et _ tN l hl).symm

/-- Witness for the amended C1 at a concrete OPEX-less ledger. -/
theorem c1_opex_missing_witness :
    (⟨[⟨"Acme", "Alpha", 4, 1, 1⟩], false⟩ : Ledger).hasOPEX = false ∧
    comparePerformance "customer" none none (⟨[⟨"Acme", "Alpha", 4, 1, 1⟩], false⟩ : Ledger) =
      comparePerformance "customer" none none
        (withZeroOpex ⟨[⟨"Acme", "Alpha", 4, 1, 1⟩], false⟩) :=
  ⟨rfl, (c1_opex_missing ⟨[⟨"Acme", "Alpha", 4, 1, 1⟩], false⟩ rfl).2.2 "customer" none none⟩

/-! ### Lemmas for the comparison ranking -/

end AnalystTools

